import Mathlib

/-
Verification of the location CRUD API and the overlay filter panel of the
map repository.  The API route handlers (GET/POST/PUT/DELETE over an
in-memory `locations` array) and the panel helpers (`isLocationInOverlay`,
`overlaysWithStats`, `searchResults`, `handleSelectAll`) are embedded
shallowly: request bodies are modelled as JSON values, the store as a list
of JSON objects, and the platform coercions (`parseInt`, `parseFloat`,
`new Date`, `trim`, truthiness) as explicit total functions.
-/

namespace MapRepo

/-- A JSON-ish runtime value as the route handlers see it.  `nan` stands for
the JavaScript number NaN (JSON itself cannot carry it, but `parseInt` /
`parseFloat` produce it and the store can end up holding it); finite JS
numbers are modelled as rationals. -/
inductive JVal where
  | null : JVal
  | bool : Bool → JVal
  | num : ℚ → JVal
  | nan : JVal
  | str : String → JVal
  | arr : List JVal → JVal
  | obj : List (String × JVal) → JVal

/-- A JS object: ordered key/value pairs (keys unique in objects built by the
code; the operations below take the first occurrence, as JS lookup does). -/
abbrev JObj := List (String × JVal)

/-- Property lookup on an object; `none` models JS `undefined`. -/
def jget (o : JObj) (k : String) : Option JVal :=
  match o with
  | [] => none
  | (k1, v) :: rest => if k1 = k then some v else jget rest k

/-- Property access on an arbitrary value: objects look up the key, other
values (numbers, strings, arrays, booleans) have no such own property, so
the access yields `undefined`. -/
def jvalGet (v : JVal) (k : String) : Option JVal :=
  match v with
  | .obj o => jget o k
  | _ => none

/-- Property access through an optional value (`undefined.k` would throw in
JS, but every access the code performs is guarded by a truthiness check, so
`none` here simply propagates to `undefined`). -/
def jfield (v : Option JVal) (k : String) : Option JVal :=
  match v with
  | some w => jvalGet w k
  | none => none

/-- JavaScript truthiness of a value. -/
def truthy : JVal → Bool
  | .null => false
  | .bool b => b
  | .num q => decide (q ≠ 0)
  | .nan => false
  | .str s => decide (s ≠ "")
  | .arr _ => true
  | .obj _ => true

/-- Truthiness of a possibly-absent property (`undefined` is falsy). -/
def truthyOpt : Option JVal → Bool
  | none => false
  | some v => truthy v

/-- Digits of a string prefix folded to a natural number; `none` when the
string does not start with a digit.  Used by the `parseInt` model. -/
def digitsVal (cs : List Char) : Option Nat :=
  let ds := cs.takeWhile Char.isDigit
  if ds.isEmpty then none
  else some (ds.foldl (fun n c => n * 10 + (c.toNat - '0'.toNat)) 0)

/-- Characters of a string with surrounding whitespace removed. -/
def trimmedChars (s : String) : List Char :=
  ((s.data.dropWhile Char.isWhitespace).reverse.dropWhile Char.isWhitespace).reverse

/-- The string with surrounding whitespace removed, as JS `trim` produces. -/
def trimString (s : String) : String :=
  ⟨trimmedChars s⟩

/-- JS `parseInt` on a string: skip leading whitespace, optional sign, then
the longest digit prefix; `none` models NaN. -/
def parseIntStr (s : String) : Option Int :=
  match s.data.dropWhile Char.isWhitespace with
  | '-' :: rest => (digitsVal rest).map (fun n => -(n : Int))
  | '+' :: rest => (digitsVal rest).map (fun n => (n : Int))
  | cs => (digitsVal cs).map (fun n => (n : Int))

/-- JS `parseInt` applied to a runtime value, as the handlers use it on
`body.speciesId` and on ids.  Numbers are truncated toward zero; strings go
through `parseIntStr`; the remaining shapes the API receives (null, booleans,
NaN) parse to NaN. -/
def jsParseInt : Option JVal → Option Int
  | some (.num q) => some (if q < 0 then ⌈q⌉ else ⌊q⌋)
  | some (.str s) => parseIntStr s
  | _ => none

/-- Leading decimal literal of a character list: digits, an optional point,
more digits.  Valid when at least one digit appears on either side. -/
def floatDigits (cs : List Char) : Option ℚ :=
  let ip := cs.takeWhile Char.isDigit
  let rest := cs.drop ip.length
  let fp := match rest with
            | '.' :: tl => tl.takeWhile Char.isDigit
            | _ => []
  if ip.isEmpty ∧ fp.isEmpty then none
  else
    let ipv : ℚ := (ip.foldl (fun n c => n * 10 + (c.toNat - '0'.toNat)) 0 : Nat)
    let fpv : ℚ := (fp.foldl (fun n c => n * 10 + (c.toNat - '0'.toNat)) 0 : Nat)
    some (ipv + fpv / ((10 : ℚ) ^ fp.length))

/-- JS `parseFloat` on a string: leading whitespace skipped, optional sign,
then a decimal literal (exponents are not used by the data of this repository and
are outside the model); `none` is NaN. -/
def parseFloatStr (s : String) : Option ℚ :=
  match s.data.dropWhile Char.isWhitespace with
  | '-' :: rest => (floatDigits rest).map (fun q => -q)
  | '+' :: rest => floatDigits rest
  | cs => floatDigits cs

/-- JS `parseFloat` applied to a runtime value (numbers pass through, strings
are parsed, anything else is NaN). -/
def jsParseFloat : Option JVal → Option ℚ
  | some (.num q) => some q
  | some (.str s) => parseFloatStr s
  | _ => none

/-- JS `String.prototype.trim` through an optional value: defined only on
strings; `none` models the TypeError thrown when `.trim()` is called on a
non-string, which the try/catch of the route turns into a 500 response. -/
def jsTrim : Option JVal → Option String
  | some (.str s) => some (trimString s)
  | _ => none

/-- Leap-year rule of the Gregorian calendar. -/
def isLeapYear (y : Nat) : Bool :=
  y % 4 = 0 && (y % 100 ≠ 0 || y % 400 = 0)

/-- Number of days of month `m` of year `y`. -/
def daysInMonth (y m : Nat) : Nat :=
  if m = 2 then (if isLeapYear y then 29 else 28)
  else if m = 4 ∨ m = 6 ∨ m = 9 ∨ m = 11 then 30
  else 31

/-- Split a character list on a separator character, the way the date parser
splits `YYYY-MM-DD` on `-`. -/
def splitOnChar (sep : Char) : List Char → List (List Char)
  | [] => [[]]
  | c :: cs =>
    let rest := splitOnChar sep cs
    if c = sep then [] :: rest
    else match rest with
         | [] => [[c]]
         | g :: gs => (c :: g) :: gs

/-- A nonempty all-digit character list folded to its value (the model of
`String.toNat?` for date components). -/
def digitsOnly (cs : List Char) : Option Nat :=
  if cs.isEmpty ∨ ¬ cs.all Char.isDigit then none
  else some (cs.foldl (fun n c => n * 10 + (c.toNat - '0'.toNat)) 0)

/-- `new Date(s)` on an ISO calendar-date string `YYYY-MM-DD` (the format
the blooming periods of this repository use), reduced to an order-isomorphic
integer key; `none` models an Invalid Date (NaN time value), which every
`<` comparison treats as false. -/
def parseDate (v : Option JVal) : Option Int :=
  match v with
  | some (.str s) =>
    match splitOnChar '-' s.data with
    | [ys, ms, ds] =>
      match digitsOnly ys, digitsOnly ms, digitsOnly ds with
      | some y, some m, some d =>
        if 1 ≤ m ∧ m ≤ 12 ∧ 1 ≤ d ∧ d ≤ daysInMonth y m then
          some ((y : Int) * 10000 + (m : Int) * 100 + (d : Int))
        else none
      | _, _, _ => none
    | _ => none
  | _ => none

/-- JS `<` between two date time-values: false whenever either side is NaN. -/
def jsLt (a b : Option Int) : Bool :=
  match a, b with
  | some x, some y => decide (x < y)
  | _, _ => false

/-- Strict equality `l.id === n` between the `id` property of a record and the
number (or NaN, `none`) produced by `parseInt`: true only for two equal
finite numbers. -/
def jsEqIdNum (v : Option JVal) (n : Option Int) : Bool :=
  match v, n with
  | some (.num q), some i => decide (q = (i : ℚ))
  | _, _ => false

/-- Numeric value of the `id` of a record as `Math.max` coerces it (ids written by
the store are always numbers; any other shape would coerce to NaN, `none`). -/
def idNum (r : JObj) : Option ℚ :=
  match jget r "id" with
  | some (.num q) => some q
  | _ => none

/-- `Math.max` on two values where `none` is NaN (NaN absorbs). -/
def jsMax2 (a b : Option ℚ) : Option ℚ :=
  match a, b with
  | some x, some y => some (max x y)
  | _, _ => none

/-- `Math.max(...locations.map(l => l.id), 0)` of the POST handler. -/
def maxIdQ (locations : List JObj) : Option ℚ :=
  (locations.map idNum).foldl jsMax2 (some 0)

/-- The freshly generated id, `Math.max(...ids, 0) + 1`, as a JS value. -/
def jsNewId (locations : List JObj) : JVal :=
  match maxIdQ locations with
  | some m => .num (m + 1)
  | none => .nan

/-- An optional integer rendered as the JS number it denotes (NaN for none). -/
def jnumOfInt : Option Int → JVal
  | some n => .num (n : ℚ)
  | none => .nan

/-- An optional rational rendered as the JS number it denotes (NaN for none). -/
def jnumOfQ : Option ℚ → JVal
  | some q => .num q
  | none => .nan

/-- `findIndex` over the store, mirroring `locations.findIndex(...)`:
index of the first record satisfying the predicate. -/
def findIndex (p : JObj → Bool) : List JObj → Option Nat
  | [] => none
  | r :: rest => if p r then some 0 else (findIndex p rest).map (· + 1)

/-- The four 400-class validation failures of the POST handler, in source
order. -/
inductive ValidationError where
  | missingField | invalidCoordinates | invalidBloomingPeriod | invalidDateOrder
deriving DecidableEq

/-- Outcome of the POST handler: a 201 with the created record, a 400 with
one of the four validation errors, or the 500 produced when the handler
throws (a truthy non-string `locationName` reaching `.trim()`). -/
inductive PostResult where
  | created : JObj → PostResult
  | invalid : ValidationError → PostResult
  | serverError : PostResult

/-- Outcome of the PUT and DELETE handlers: 200 with the affected record,
400 when the id is missing/falsy, or 404 when no record matches. -/
inductive MutResult where
  | ok : JObj → MutResult
  | errMissingId : MutResult
  | errNotFound : MutResult

/-- First seed record of the in-memory `locations` array. -/
def seedA : JObj :=
  [("id", .num 1), ("speciesId", .num 1),
   ("locationName", .str "Vườn hoa Nguyễn Huệ"),
   ("coordinates", .arr [.num 106.7008, .num 10.7769]),
   ("bloomingPeriod", .obj [("start", .str "2024-02-01"),
                            ("peak", .str "2024-02-15"),
                            ("end", .str "2024-03-15")])]

/-- Second seed record. -/
def seedB : JObj :=
  [("id", .num 2), ("speciesId", .num 2),
   ("locationName", .str "Công viên Tao Đàn"),
   ("coordinates", .arr [.num 106.6947, .num 10.7881]),
   ("bloomingPeriod", .obj [("start", .str "2024-01-15"),
                            ("peak", .str "2024-02-01"),
                            ("end", .str "2024-02-28")])]

/-- Third seed record. -/
def seedC : JObj :=
  [("id", .num 3), ("speciesId", .num 1),
   ("locationName", .str "Vườn hoa Lý Tự Trọng"),
   ("coordinates", .arr [.num 106.692, .num 10.7756]),
   ("bloomingPeriod", .obj [("start", .str "2024-02-10"),
                            ("peak", .str "2024-02-25"),
                            ("end", .str "2024-03-20")])]

/-- The seed state of the in-memory `locations` array. -/
def seedLocations : List JObj := [seedA, seedB, seedC]

/-- Failure condition of validation step 1 (MissingField): one of the four
required properties absent or falsy. -/
def failsMissingField (body : JObj) : Bool :=
  !(truthyOpt (jget body "speciesId") && truthyOpt (jget body "locationName") &&
    truthyOpt (jget body "coordinates") && truthyOpt (jget body "bloomingPeriod"))

/-- Failure condition of validation step 2 (InvalidCoordinates):
`coordinates` not an array of exactly two elements. -/
def failsInvalidCoordinates (body : JObj) : Bool :=
  match jget body "coordinates" with
  | some (.arr coords) => decide (coords.length ≠ 2)
  | _ => true

/-- Failure condition of validation step 3 (InvalidBloomingPeriod): one of
`start`, `peak`, `end` absent or falsy. -/
def failsInvalidBloomingPeriod (body : JObj) : Bool :=
  let bp := jget body "bloomingPeriod"
  !(truthyOpt (jfield bp "start") && truthyOpt (jfield bp "peak") &&
    truthyOpt (jfield bp "end"))

/-- Failure condition of validation step 4 (InvalidDateOrder): parsed
`peak < start` or `end < peak`, strict, NaN comparing false. -/
def failsInvalidDateOrder (body : JObj) : Bool :=
  let bp := jget body "bloomingPeriod"
  jsLt (parseDate (jfield bp "peak")) (parseDate (jfield bp "start")) ||
  jsLt (parseDate (jfield bp "end")) (parseDate (jfield bp "peak"))

/-- The object literal the POST handler builds on success: the generated id,
the coerced `speciesId`, the trimmed name, the two float-coerced
coordinates, and the blooming-period strings copied through unchanged. -/
def mkLocation (body : JObj) (locations : List JObj) (nm : String)
    (coords : List JVal) : JObj :=
  let bp := jget body "bloomingPeriod"
  [("id", jsNewId locations),
   ("speciesId", jnumOfInt (jsParseInt (jget body "speciesId"))),
   ("locationName", .str nm),
   ("coordinates", .arr [jnumOfQ (jsParseFloat (coords.get? 0)),
                         jnumOfQ (jsParseFloat (coords.get? 1))]),
   ("bloomingPeriod", .obj [("start", (jfield bp "start").getD .null),
                            ("peak", (jfield bp "peak").getD .null),
                            ("end", (jfield bp "end").getD .null)])]

/-- The POST handler: the four validation checks in source order (each
condition named by the `fails...` definition it tests), then id generation,
normalization and append.  Returns the response together with the store the
call leaves behind.  The final `serverError` arm of the coordinates match is
unreachable: the InvalidCoordinates check has already passed. -/
def POST (body : JObj) (locations : List JObj) : PostResult × List JObj :=
  if failsMissingField body then (.invalid .missingField, locations)
  else if failsInvalidCoordinates body then (.invalid .invalidCoordinates, locations)
  else if failsInvalidBloomingPeriod body then (.invalid .invalidBloomingPeriod, locations)
  else if failsInvalidDateOrder body then (.invalid .invalidDateOrder, locations)
  else
    match jsTrim (jget body "locationName") with
    | none => (.serverError, locations)
    | some nm =>
      match jget body "coordinates" with
      | some (.arr coords) =>
        (.created (mkLocation body locations nm coords),
         locations ++ [mkLocation body locations nm coords])
      | _ => (.serverError, locations)

/-- Rest destructuring `const { id, ...updateData } = body`: every own
property except `id`. -/
def jremove (o : JObj) (k : String) : JObj :=
  o.filter (fun kv => kv.1 ≠ k)

/-- Object spread `{...a, ...b}`: the properties of `a` in order, each
overridden by the value in `b` when `b` also has the key, followed by the
properties of `b` absent from `a`. -/
def jmerge (a b : JObj) : JObj :=
  (a.map (fun kv => match jget b kv.1 with
                    | some v => (kv.1, v)
                    | none => kv)) ++
  b.filter (fun kv => (jget a kv.1).isNone)

/-- The PUT handler: falsy id → 400; `findIndex` on `l.id === parseInt(id)`,
404 when absent; otherwise the record at the found index is replaced by the
spread merge with the remaining fields of the body and returned. -/
def PUT (body : JObj) (locations : List JObj) : MutResult × List JObj :=
  let idv := jget body "id"
  if !(truthyOpt idv) then (.errMissingId, locations)
  else
    match findIndex (fun l => jsEqIdNum (jget l "id") (jsParseInt idv)) locations with
    | none => (.errNotFound, locations)
    | some i =>
      match locations.get? i with
      | some r =>
        let updated := jmerge r (jremove body "id")
        (.ok updated, locations.set i updated)
      | none => (.errNotFound, locations)

/-- The DELETE handler: the `id` query parameter (`none` models a null
`searchParams.get`), falsy → 400; `findIndex` then `splice(index, 1)`. -/
def DELETE (idParam : Option String) (locations : List JObj) : MutResult × List JObj :=
  match idParam with
  | none => (.errMissingId, locations)
  | some s =>
    if s = "" then (.errMissingId, locations)
    else
      match findIndex (fun l => jsEqIdNum (jget l "id") (parseIntStr s)) locations with
      | none => (.errNotFound, locations)
      | some i =>
        match locations.get? i with
        | some r => (.ok r, locations.eraseIdx i)
        | none => (.errNotFound, locations)

/-- First lookup that succeeds: the merge-lookup law `{...a, ...b}[k]`. -/
def jgetOr (x y : Option JVal) : Option JVal :=
  match x with
  | some v => some v
  | none => y

/-- The record a successful POST created (`[]` on a non-created outcome);
lets concrete scenarios name the created record. -/
def postRec (body : JObj) (locations : List JObj) : JObj :=
  match (POST body locations).1 with
  | .created r => r
  | _ => []

/-- A well-formed creation payload (the §8 scenario: species 2, a name with
surrounding whitespace, two numeric coordinates, an ordered period). -/
def testPayload : JObj :=
  [("speciesId", .num 2),
   ("locationName", .str " Test Garden "),
   ("coordinates", .arr [.num 106.7, .num 10.78]),
   ("bloomingPeriod", .obj [("start", .str "2024-03-01"),
                            ("peak", .str "2024-03-15"),
                            ("end", .str "2024-04-01")])]

/-- A payload with a fully parseable blooming period whose peak precedes its
start, but no `speciesId` property. -/
def noSpeciesBadDates : JObj :=
  [("locationName", .str "x"),
   ("coordinates", .arr [.num 1, .num 2]),
   ("bloomingPeriod", .obj [("start", .str "2024-03-15"),
                            ("peak", .str "2024-03-01"),
                            ("end", .str "2024-04-01")])]

/-- An update body that renames record 1 and also tries to change its id. -/
def renameBody : JObj :=
  [("id", .num 1), ("locationName", .str "Renamed"), ("extra", .bool true)]

/-- An update body that overwrites the coordinates of record 1 with a one-element
array. -/
def coordsPatchBody : JObj :=
  [("id", .num 1), ("coordinates", .arr [.num 0])]

/-- An otherwise-valid payload whose peak parses strictly before its start. -/
def badDatesPayload : JObj :=
  [("speciesId", .num 2),
   ("locationName", .str "x"),
   ("coordinates", .arr [.num 1, .num 2]),
   ("bloomingPeriod", .obj [("start", .str "2024-03-15"),
                            ("peak", .str "2024-03-01"),
                            ("end", .str "2024-04-01")])]

/-- A payload whose three blooming dates coincide. -/
def eqDatesPayload : JObj :=
  [("speciesId", .num 2),
   ("locationName", .str "x"),
   ("coordinates", .arr [.num 1, .num 2]),
   ("bloomingPeriod", .obj [("start", .str "2024-03-01"),
                            ("peak", .str "2024-03-01"),
                            ("end", .str "2024-03-01")])]

/-- The record the §8 creation scenario stores: id 4, trimmed name, dates
passed through. -/
def createdTest : JObj :=
  [("id", .num 4), ("speciesId", .num 2),
   ("locationName", .str "Test Garden"),
   ("coordinates", .arr [.num 106.7, .num 10.78]),
   ("bloomingPeriod", .obj [("start", .str "2024-03-01"),
                            ("peak", .str "2024-03-15"),
                            ("end", .str "2024-04-01")])]

/-- The `coordinates` property of a record is an array of exactly two finite
numbers. -/
def goodCoords (r : JObj) : Prop :=
  ∃ a b : ℚ, jget r "coordinates" = some (.arr [.num a, .num b])

section Panel

/-- Geographic bounding rectangle of an overlay. -/
structure Bounds where
  minLon : ℚ
  maxLon : ℚ
  minLat : ℚ
  maxLat : ℚ

/-- A map overlay as the filter panel consumes it (the fields its logic
reads: id, display name, bounds). -/
structure MapOverlay where
  id : Int
  name : String
  bounds : Bounds

/-- A location as the filter panel consumes it: a typed record whose
`coordinates` destructure into `[lon, lat]`. -/
structure Location where
  coordinates : ℚ × ℚ

/-- `isLocationInOverlay`: inclusive axis-aligned containment of the
point of the location in the bounds of the overlay. -/
def isLocationInOverlay (location : Location) (overlay : MapOverlay) : Bool :=
  let lon := location.coordinates.1
  let lat := location.coordinates.2
  decide (lon ≥ overlay.bounds.minLon) && decide (lon ≤ overlay.bounds.maxLon) &&
  decide (lat ≥ overlay.bounds.minLat) && decide (lat ≤ overlay.bounds.maxLat)

/-- An overlay spread together with its derived statistics. -/
structure OverlayWithStats where
  overlay : MapOverlay
  locationCount : Nat
  locations : List Location

/-- `overlaysWithStats`: each overlay extended with the locations it
contains and their count. -/
def overlaysWithStats (allOverlays : List MapOverlay) (allLocations : List Location) :
    List OverlayWithStats :=
  allOverlays.map (fun overlay =>
    let overlayLocations := allLocations.filter (fun loc => isLocationInOverlay loc overlay)
    ⟨overlay, overlayLocations.length, overlayLocations⟩)

/-- Character-list test used by the `String.includes` model: does the first
list start the second? -/
def startsWithList : List Char → List Char → Bool
  | [], _ => true
  | _ :: _, [] => false
  | c :: cs, d :: ds => c = d && startsWithList cs ds

/-- Does the pattern occur contiguously anywhere in the haystack? -/
def hasSubList (pat : List Char) : List Char → Bool
  | [] => startsWithList pat []
  | d :: ds => startsWithList pat (d :: ds) || hasSubList pat ds

/-- JS `s.includes(pat)`: substring occurrence. -/
def jsIncludes (s pat : String) : Bool :=
  hasSubList pat.data s.data

/-- JS `toLowerCase` (over the ASCII range the overlay names and queries
use). -/
def lowerString (s : String) : String :=
  ⟨s.data.map Char.toLower⟩

/-- `searchResults`: an empty (or whitespace-only) query yields all overlay
stats, otherwise a case-insensitive substring filter on the overlay name. -/
def searchResults (allOverlays : List MapOverlay) (allLocations : List Location)
    (searchQuery : String) : List OverlayWithStats :=
  if trimString searchQuery = "" then overlaysWithStats allOverlays allLocations
  else
    let query := lowerString searchQuery
    (overlaysWithStats allOverlays allLocations).filter
      (fun overlay => jsIncludes (lowerString overlay.overlay.name) query)

/-- `handleSelectAll`: clear when everything is selected, otherwise the ids
of every overlay of `overlaysWithStats` (the unfiltered list). -/
def handleSelectAll (selectedOverlayIds : List Int) (allOverlays : List MapOverlay)
    (allLocations : List Location) : List Int :=
  if selectedOverlayIds.length = (overlaysWithStats allOverlays allLocations).length then []
  else (overlaysWithStats allOverlays allLocations).map (fun overlay => overlay.overlay.id)

/-- Two overlays over the same box, distinguished by name, for concrete
selection scenarios. -/
def overlayAlpha : MapOverlay := ⟨1, "Alpha Garden", ⟨0, 1, 0, 1⟩⟩

/-- Second overlay of the selection scenarios. -/
def overlayBeta : MapOverlay := ⟨2, "Beta Park", ⟨0, 1, 0, 1⟩⟩

/-- The two-overlay fixture. -/
def twoOverlays : List MapOverlay := [overlayAlpha, overlayBeta]

/-- A malformed overlay whose `minLon` exceeds its `maxLon`. -/
def badBox : MapOverlay := ⟨9, "Bad", ⟨1, 0, 0, 1⟩⟩

/-- The corner-containment overlay of the §8 scenario of the spec. -/
def cornerBox : MapOverlay := ⟨5, "Corner", ⟨-118.44, -118.38, 34.764, 34.88⟩⟩

/-- A location sitting on the shared boundary of the two fixture overlays. -/
def locW : Location := ⟨(0, 1)⟩

end Panel

/-! Helper lemmas. -/

theorem jget_append (x y : JObj) (k : String) :
    jget (x ++ y) k = jgetOr (jget x k) (jget y k) := by
  induction x with
  | nil => simp [jget, jgetOr]
  | cons kv rest ih =>
    obtain ⟨k1, v⟩ := kv
    by_cases h : k1 = k <;> simp [jget, h, jgetOr, ih]

theorem jget_mapOverride (a b : JObj) (k : String) :
    jget (a.map (fun kv => match jget b kv.1 with
                           | some v => (kv.1, v)
                           | none => kv)) k =
      match jget a k with
      | some v => (match jget b k with
                   | some w => some w
                   | none => some v)
      | none => none := by
  induction a with
  | nil => simp [jget]
  | cons kv rest ih =>
    obtain ⟨k1, v1⟩ := kv
    by_cases h : k1 = k
    · subst h
      rcases hb : jget b k1 <;> simp [jget, hb]
    · rcases hb : jget b k1 <;> simp [jget, h, hb, ih]

theorem jget_filterAbsent (a b : JObj) (k : String) (h : jget a k = none) :
    jget (b.filter (fun kv => (jget a kv.1).isNone)) k = jget b k := by
  induction b with
  | nil => simp
  | cons kv rest ih =>
    obtain ⟨k2, v2⟩ := kv
    by_cases hk : k2 = k
    · subst hk
      simp [jget, h, List.filter]
    · rcases ha : jget a k2 <;> simp [jget, hk, List.filter, ha, ih]

theorem jget_jmerge (a b : JObj) (k : String) :
    jget (jmerge a b) k = jgetOr (jget b k) (jget a k) := by
  rw [jmerge, jget_append, jget_mapOverride]
  rcases ha : jget a k with _ | v
  · rw [jget_filterAbsent a b k ha]
    rcases hb : jget b k <;> simp [jgetOr]
  · rcases hb : jget b k <;> simp [jgetOr]

theorem jget_jremove_self (o : JObj) (k : String) :
    jget (jremove o k) k = none := by
  induction o with
  | nil => simp [jremove, jget]
  | cons kv rest ih =>
    obtain ⟨k1, v⟩ := kv
    by_cases h : k1 = k
    · subst h
      simpa [jremove, List.filter, jget] using ih
    · simpa [jremove, List.filter, h, jget] using ih

theorem findIndex_eq_none (p : JObj → Bool) (l : List JObj)
    (h : ∀ x ∈ l, p x = false) : findIndex p l = none := by
  induction l with
  | nil => rfl
  | cons r rest ih =>
    have hr := h r (by simp)
    rw [findIndex, hr]
    simp only [Bool.false_eq_true, if_false]
    rw [ih (fun x hx => h x (by simp [hx]))]
    rfl

theorem findIndex_append_cons (p : JObj → Bool) (pre : List JObj) (r : JObj)
    (post : List JObj) (hpre : ∀ x ∈ pre, p x = false) (hr : p r = true) :
    findIndex p (pre ++ r :: post) = some pre.length := by
  induction pre with
  | nil => simp [findIndex, hr]
  | cons x rest ih =>
    have hx := hpre x (by simp)
    rw [List.cons_append, findIndex, hx]
    simp only [Bool.false_eq_true, if_false]
    rw [ih (fun y hy => hpre y (by simp [hy]))]
    rfl

theorem get?_append_cons {α : Type} (pre : List α) (r : α) (post : List α) :
    (pre ++ r :: post).get? pre.length = some r := by
  induction pre with
  | nil => rfl
  | cons x rest ih => simpa using ih

theorem set_append_cons {α : Type} (pre : List α) (r x : α) (post : List α) :
    (pre ++ r :: post).set pre.length x = pre ++ x :: post := by
  induction pre with
  | nil => rfl
  | cons y rest ih => simp [List.set, ih]

theorem eraseIdx_append_cons {α : Type} (pre : List α) (r : α) (post : List α) :
    (pre ++ r :: post).eraseIdx pre.length = pre ++ post := by
  induction pre with
  | nil => rfl
  | cons y rest ih => simp [List.eraseIdx, ih]

theorem mem_of_mem_eraseIdx {α : Type} {x : α} :
    ∀ (l : List α) (i : Nat), x ∈ l.eraseIdx i → x ∈ l := by
  intro l
  induction l with
  | nil => intro i h; simp [List.eraseIdx] at h
  | cons y rest ih =>
    intro i h
    match i with
    | 0 => exact List.mem_cons_of_mem y h
    | n + 1 =>
      rw [List.eraseIdx] at h
      rcases List.mem_cons.mp h with h1 | h1
      · exact h1 ▸ List.mem_cons_self y rest
      · exact List.mem_cons_of_mem y (ih n h1)

theorem foldl_jsMax2_bound (l : List (Option ℚ)) (a : ℚ)
    (h : ∀ x ∈ l, ∃ p : ℚ, x = some p) :
    ∃ m : ℚ, l.foldl jsMax2 (some a) = some m ∧ a ≤ m ∧
      ∀ p : ℚ, some p ∈ l → p ≤ m := by
  induction l generalizing a with
  | nil => exact ⟨a, rfl, le_refl a, by simp⟩
  | cons x rest ih =>
    obtain ⟨p, hp⟩ := h x (by simp)
    subst hp
    obtain ⟨m, hm, hle, hall⟩ := ih (max a p) (fun y hy => h y (by simp [hy]))
    refine ⟨m, ?_, le_trans (le_max_left a p) hle, ?_⟩
    · simpa [jsMax2] using hm
    · intro q hq
      rcases List.mem_cons.mp hq with h1 | h1
      · have : q = p := by simpa using h1
        exact this ▸ le_trans (le_max_right a p) hle
      · exact hall q h1

theorem POST_missingField_of (body : JObj) (store : List JObj)
    (h : failsMissingField body = true) :
    POST body store = (.invalid .missingField, store) := by
  simp [POST, h]

theorem POST_invalidCoordinates_of (body : JObj) (store : List JObj)
    (h1 : failsMissingField body = false) (h2 : failsInvalidCoordinates body = true) :
    POST body store = (.invalid .invalidCoordinates, store) := by
  simp [POST, h1, h2]

theorem POST_invalidBloomingPeriod_of (body : JObj) (store : List JObj)
    (h1 : failsMissingField body = false) (h2 : failsInvalidCoordinates body = false)
    (h3 : failsInvalidBloomingPeriod body = true) :
    POST body store = (.invalid .invalidBloomingPeriod, store) := by
  simp [POST, h1, h2, h3]

theorem POST_invalidDateOrder_of (body : JObj) (store : List JObj)
    (h1 : failsMissingField body = false) (h2 : failsInvalidCoordinates body = false)
    (h3 : failsInvalidBloomingPeriod body = false) (h4 : failsInvalidDateOrder body = true) :
    POST body store = (.invalid .invalidDateOrder, store) := by
  simp [POST, h1, h2, h3, h4]

theorem POST_created_inv (body : JObj) (store : List JObj) (rec2 : JObj)
    (store2 : List JObj) (h : POST body store = (.created rec2, store2)) :
    store2 = store ++ [rec2] ∧
    failsMissingField body = false ∧ failsInvalidCoordinates body = false ∧
    failsInvalidBloomingPeriod body = false ∧ failsInvalidDateOrder body = false ∧
    ∃ (coords : List JVal) (nm : String),
      jget body "coordinates" = some (.arr coords) ∧ coords.length = 2 ∧
      jsTrim (jget body "locationName") = some nm ∧
      rec2 = mkLocation body store nm coords := by
  rcases e1 : failsMissingField body with _ | _
  case true => rw [POST, e1] at h; simp at h
  case false =>
  rcases e2 : failsInvalidCoordinates body with _ | _
  case true => rw [POST, e1, e2] at h; simp at h
  case false =>
  rcases e3 : failsInvalidBloomingPeriod body with _ | _
  case true => rw [POST, e1, e2, e3] at h; simp at h
  case false =>
  rcases e4 : failsInvalidDateOrder body with _ | _
  case true => rw [POST, e1, e2, e3, e4] at h; simp at h
  case false =>
  rw [POST, e1, e2, e3, e4] at h
  simp only [Bool.false_eq_true, if_false] at h
  rcases ht : jsTrim (jget body "locationName") with _ | nm
  · rw [ht] at h; simp at h
  · rw [ht] at h
    rcases hc : jget body "coordinates" with _ | v
    · rw [hc] at h; simp at h
    · rw [hc] at h
      cases v
      case arr coords =>
        have hlen : coords.length = 2 := by
          rw [failsInvalidCoordinates, hc] at e2
          simpa using e2
        simp only [Prod.mk.injEq, PostResult.created.injEq] at h
        obtain ⟨hrec, hstore⟩ := h
        subst hrec
        subst hstore
        exact ⟨rfl, rfl, rfl, rfl, rfl, coords, nm, rfl, hlen, rfl, rfl⟩
      all_goals simp at h

theorem PUT_notFound_of (body : JObj) (store : List JObj)
    (htr : truthyOpt (jget body "id") = true)
    (hno : ∀ r ∈ store, jsEqIdNum (jget r "id") (jsParseInt (jget body "id")) = false) :
    PUT body store = (.errNotFound, store) := by
  rw [PUT]
  simp only [htr, Bool.not_true, Bool.false_eq_true, if_false]
  rw [findIndex_eq_none _ _ hno]

theorem PUT_found (body : JObj) (pre post : List JObj) (r : JObj)
    (htr : truthyOpt (jget body "id") = true)
    (hr : jsEqIdNum (jget r "id") (jsParseInt (jget body "id")) = true)
    (hpre : ∀ x ∈ pre, jsEqIdNum (jget x "id") (jsParseInt (jget body "id")) = false) :
    PUT body (pre ++ r :: post) =
      (.ok (jmerge r (jremove body "id")),
       pre ++ jmerge r (jremove body "id") :: post) := by
  rw [PUT]
  simp only [htr, Bool.not_true, Bool.false_eq_true, if_false]
  rw [findIndex_append_cons _ _ _ _ hpre hr]
  simp only [get?_append_cons, set_append_cons]

theorem DELETE_notFound_of (s : String) (store : List JObj) (hne : s ≠ "")
    (hno : ∀ r ∈ store, jsEqIdNum (jget r "id") (parseIntStr s) = false) :
    DELETE (some s) store = (.errNotFound, store) := by
  rw [DELETE]
  simp only [hne, if_false]
  rw [findIndex_eq_none _ _ hno]

theorem DELETE_found (s : String) (pre post : List JObj) (r : JObj) (hne : s ≠ "")
    (hr : jsEqIdNum (jget r "id") (parseIntStr s) = true)
    (hpre : ∀ x ∈ pre, jsEqIdNum (jget x "id") (parseIntStr s) = false) :
    DELETE (some s) (pre ++ r :: post) = (.ok r, pre ++ post) := by
  rw [DELETE]
  simp only [hne, if_false]
  rw [findIndex_append_cons _ _ _ _ hpre hr]
  simp only [get?_append_cons, eraseIdx_append_cons]

theorem jsLt_self (a : Option Int) : jsLt a a = false := by
  cases a <;> simp [jsLt]

theorem jsEqIdNum_false_of_ne (v : Option JVal) (n : Int)
    (h : v ≠ some (.num (n : ℚ))) : jsEqIdNum v (some n) = false := by
  rcases v with _ | w
  · rfl
  · cases w <;> try rfl
    case num q =>
      simp only [jsEqIdNum, decide_eq_false_iff_not]
      rintro rfl
      exact h rfl

theorem jsEqIdNum_true_of_eq (v : Option JVal) (n : Int)
    (h : v = some (.num (n : ℚ))) : jsEqIdNum v (some n) = true := by
  rw [h]
  simp [jsEqIdNum]

theorem jget_mkLocation_id (body : JObj) (store : List JObj) (nm : String)
    (coords : List JVal) :
    jget (mkLocation body store nm coords) "id" = some (jsNewId store) := rfl

theorem jget_mkLocation_speciesId (body : JObj) (store : List JObj) (nm : String)
    (coords : List JVal) :
    jget (mkLocation body store nm coords) "speciesId" =
      some (jnumOfInt (jsParseInt (jget body "speciesId"))) := rfl

theorem jget_mkLocation_locationName (body : JObj) (store : List JObj) (nm : String)
    (coords : List JVal) :
    jget (mkLocation body store nm coords) "locationName" = some (.str nm) := rfl

theorem jget_mkLocation_coordinates (body : JObj) (store : List JObj) (nm : String)
    (coords : List JVal) :
    jget (mkLocation body store nm coords) "coordinates" =
      some (.arr [jnumOfQ (jsParseFloat (coords.get? 0)),
                  jnumOfQ (jsParseFloat (coords.get? 1))]) := rfl

theorem jget_mkLocation_bloomingPeriod (body : JObj) (store : List JObj) (nm : String)
    (coords : List JVal) :
    jget (mkLocation body store nm coords) "bloomingPeriod" =
      some (.obj [("start", (jfield (jget body "bloomingPeriod") "start").getD .null),
                  ("peak", (jfield (jget body "bloomingPeriod") "peak").getD .null),
                  ("end", (jfield (jget body "bloomingPeriod") "end").getD .null)]) := rfl

/-! Claim theorems. -/

/-- C5: for every point `(lon, lat)` and every box, containment holds iff
`minLon <= lon <= maxLon` and `minLat <= lat <= maxLat`, inclusive at all
four edges; and for every malformed box with `min > max` no point is
contained (the test is a total boolean function, so no exception can
arise). -/
theorem c5_bounds_containment (lon lat : ℚ) (overlay : MapOverlay) :
    (isLocationInOverlay ⟨(lon, lat)⟩ overlay = true ↔
      (overlay.bounds.minLon ≤ lon ∧ lon ≤ overlay.bounds.maxLon ∧
       overlay.bounds.minLat ≤ lat ∧ lat ≤ overlay.bounds.maxLat)) ∧
    ((overlay.bounds.minLon > overlay.bounds.maxLon ∨
      overlay.bounds.minLat > overlay.bounds.maxLat) →
      isLocationInOverlay ⟨(lon, lat)⟩ overlay = false) := by
  have hiff : isLocationInOverlay ⟨(lon, lat)⟩ overlay = true ↔
      (overlay.bounds.minLon ≤ lon ∧ lon ≤ overlay.bounds.maxLon ∧
       overlay.bounds.minLat ≤ lat ∧ lat ≤ overlay.bounds.maxLat) := by
    simp [isLocationInOverlay, and_assoc]
  refine ⟨hiff, fun h => ?_⟩
  rw [Bool.eq_false_iff]
  intro hc
  have hc2 := hiff.mp hc
  rcases h with h | h
  · linarith [hc2.1, hc2.2.1]
  · linarith [hc2.2.2.1, hc2.2.2.2]

/-- C5 witness: a point strictly inside the degenerate box `minLon = 1 >
maxLon = 0` is not contained, and the exact-corner point `(-118.44, 34.764)`
of the `cornerBox` is contained. -/
theorem c5_bounds_containment_witness :
    ((badBox.bounds.minLon > badBox.bounds.maxLon ∨
      badBox.bounds.minLat > badBox.bounds.maxLat) ∧
     isLocationInOverlay ⟨(0, 0)⟩ badBox = false) ∧
    isLocationInOverlay ⟨(-118.44, 34.764)⟩ cornerBox = true :=
  ⟨⟨by norm_num [badBox], (c5_bounds_containment 0 0 badBox).2 (by norm_num [badBox])⟩,
   (c5_bounds_containment (-118.44) 34.764 cornerBox).1.mpr (by norm_num [cornerBox])⟩

/-- C6: `overlaysWithStats` returns the overlays in input order, each
extended with the stable containment-filter of the input locations and a
`locationCount` equal to the length of that filtered list (the count an
independent filter with the same bounds produces). -/
theorem c6_overlay_stats (allOverlays : List MapOverlay) (allLocations : List Location) :
    ((overlaysWithStats allOverlays allLocations).map (fun w => w.overlay) = allOverlays) ∧
    ∀ w ∈ overlaysWithStats allOverlays allLocations,
      w.locations = allLocations.filter (fun l => isLocationInOverlay l w.overlay) ∧
      w.locationCount =
        (allLocations.filter (fun l => isLocationInOverlay l w.overlay)).length := by
  constructor
  · induction allOverlays with
    | nil => rfl
    | cons o rest ih => simpa [overlaysWithStats] using ih
  · intro w hw
    simp only [overlaysWithStats, List.mem_map] at hw
    obtain ⟨o, ho, rfl⟩ := hw
    exact ⟨rfl, rfl⟩

/-- C6 witness: the two-overlay fixture with one boundary location. -/
theorem c6_overlay_stats_witness :
    ((overlaysWithStats twoOverlays [locW]).map (fun w => w.overlay) = twoOverlays) ∧
    ((⟨overlayAlpha, 1, [locW]⟩ : OverlayWithStats).locations =
      [locW].filter (fun l => isLocationInOverlay l overlayAlpha) ∧
     (⟨overlayAlpha, 1, [locW]⟩ : OverlayWithStats).locationCount =
      ([locW].filter (fun l => isLocationInOverlay l overlayAlpha)).length) := by
  refine ⟨(c6_overlay_stats twoOverlays [locW]).1, ?_⟩
  have hm : (⟨overlayAlpha, 1, [locW]⟩ : OverlayWithStats) ∈
      overlaysWithStats twoOverlays [locW] := by
    rw [show overlaysWithStats twoOverlays [locW] =
      [⟨overlayAlpha, 1, [locW]⟩, ⟨overlayBeta, 1, [locW]⟩] from rfl]
    exact List.mem_cons_self _ _
  exact (c6_overlay_stats twoOverlays [locW]).2 _ hm

/-- C4 counterexample: with overlays named Alpha Garden and Beta Park and
query "alp", the search-filtered candidate set is just overlay 1, but
select-all (from an incomplete selection) selects both ids, so the selection
is not the ids of the search-filtered candidate set. -/
theorem c4_counterexample :
    handleSelectAll [] twoOverlays [] = [1, 2] ∧
    (searchResults twoOverlays [] "alp").map (fun w => w.overlay.id) = [1] ∧
    ([1, 2] : List Int) ≠ [1] :=
  ⟨rfl, rfl, by decide⟩

/-- C4 amended: if the selection size equals the total overlay count the
selection is cleared; otherwise the new selection is the ids of every
overlay of the full, unfiltered overlay list — the search filter plays no
part in select-all. -/
theorem c4_select_all (selected : List Int) (allOverlays : List MapOverlay)
    (allLocations : List Location) :
    handleSelectAll selected allOverlays allLocations =
      if selected.length = allOverlays.length then []
      else allOverlays.map (fun o => o.id) := by
  rw [handleSelectAll]
  have hlen : (overlaysWithStats allOverlays allLocations).length = allOverlays.length := by
    simp [overlaysWithStats]
  rw [hlen]
  have hmap : (overlaysWithStats allOverlays allLocations).map (fun w => w.overlay.id) =
      allOverlays.map (fun o => o.id) := by
    induction allOverlays with
    | nil => rfl
    | cons o rest ih => simp [overlaysWithStats] at ih ⊢
  rw [hmap]

/-- C3: validation short-circuits in the fixed order MissingField,
InvalidCoordinates, InvalidBloomingPeriod, InvalidDateOrder: the error
returned is the first check whose condition holds (with the store left
unchanged), and a created record is returned only when all four checks
pass. -/
theorem c3_validation_order (body : JObj) (store : List JObj) :
    (failsMissingField body = true →
      POST body store = (.invalid .missingField, store)) ∧
    (failsMissingField body = false → failsInvalidCoordinates body = true →
      POST body store = (.invalid .invalidCoordinates, store)) ∧
    (failsMissingField body = false → failsInvalidCoordinates body = false →
      failsInvalidBloomingPeriod body = true →
      POST body store = (.invalid .invalidBloomingPeriod, store)) ∧
    (failsMissingField body = false → failsInvalidCoordinates body = false →
      failsInvalidBloomingPeriod body = false → failsInvalidDateOrder body = true →
      POST body store = (.invalid .invalidDateOrder, store)) ∧
    (∀ rec2 store2, POST body store = (.created rec2, store2) →
      failsMissingField body = false ∧ failsInvalidCoordinates body = false ∧
      failsInvalidBloomingPeriod body = false ∧ failsInvalidDateOrder body = false) :=
  ⟨POST_missingField_of body store,
   POST_invalidCoordinates_of body store,
   POST_invalidBloomingPeriod_of body store,
   POST_invalidDateOrder_of body store,
   fun rec2 store2 h =>
     let t := POST_created_inv body store rec2 store2 h
     ⟨t.2.1, t.2.2.1, t.2.2.2.1, t.2.2.2.2.1⟩⟩

/-- C3 witness: the empty payload fails the MissingField check, and POST on
the seed store reports exactly that error with the store unchanged. -/
theorem c3_validation_order_witness :
    failsMissingField ([] : JObj) = true ∧
    POST [] seedLocations = (.invalid .missingField, seedLocations) :=
  ⟨rfl, (c3_validation_order [] seedLocations).1 rfl⟩

/-- C2 counterexample: a payload whose parsed peak precedes its parsed start
but which lacks `speciesId` makes Create fail with MissingField, not
InvalidDateOrder, refuting the unconditional quantification of the claim. -/
theorem c2_counterexample :
    jsLt (parseDate (jfield (jget noSpeciesBadDates "bloomingPeriod") "peak"))
         (parseDate (jfield (jget noSpeciesBadDates "bloomingPeriod") "start")) = true ∧
    POST noSpeciesBadDates seedLocations = (.invalid .missingField, seedLocations) ∧
    POST noSpeciesBadDates seedLocations ≠ (.invalid .invalidDateOrder, seedLocations) :=
  ⟨rfl, rfl, by
    intro hcon
    rw [show POST noSpeciesBadDates seedLocations =
      (.invalid .missingField, seedLocations) from rfl] at hcon
    injection hcon with h1 h2
    injection h1 with h3
    exact absurd h3 (by decide)⟩

/-- C2 amended: for every payload that passes the MissingField,
InvalidCoordinates and InvalidBloomingPeriod checks, if the parsed dates
satisfy `peak < start` or `end < peak` (strict) then Create fails with
InvalidDateOrder and the store is unchanged; and equal parsed dates pass the
date-order check. -/
theorem c2_invalid_date_order (body : JObj) (store : List JObj)
    (h1 : failsMissingField body = false) (h2 : failsInvalidCoordinates body = false)
    (h3 : failsInvalidBloomingPeriod body = false) :
    (failsInvalidDateOrder body = true →
      POST body store = (.invalid .invalidDateOrder, store)) ∧
    (parseDate (jfield (jget body "bloomingPeriod") "start") =
       parseDate (jfield (jget body "bloomingPeriod") "peak") →
     parseDate (jfield (jget body "bloomingPeriod") "peak") =
       parseDate (jfield (jget body "bloomingPeriod") "end") →
     failsInvalidDateOrder body = false) := by
  refine ⟨POST_invalidDateOrder_of body store h1 h2 h3, fun hsp hpe => ?_⟩
  simp only [failsInvalidDateOrder]
  rw [← hsp, ← hpe, ← hsp]
  simp [jsLt_self]

/-- C2 witness: the §8 inverted-dates scenario fails with InvalidDateOrder
and leaves the seed store unchanged, while a payload with three equal dates
passes the date-order check. -/
theorem c2_invalid_date_order_witness :
    (failsInvalidDateOrder badDatesPayload = true ∧
     POST badDatesPayload seedLocations = (.invalid .invalidDateOrder, seedLocations)) ∧
    failsInvalidDateOrder eqDatesPayload = false :=
  ⟨⟨rfl, (c2_invalid_date_order badDatesPayload seedLocations rfl rfl rfl).1 rfl⟩,
   (c2_invalid_date_order eqDatesPayload seedLocations rfl rfl rfl).2 rfl rfl⟩

/-- C7: every payload accepted by Create is stored and returned with
`speciesId` the result of the integer coercion, `locationName` trimmed of
surrounding whitespace, each coordinate the result of the float coercion,
and the blooming-period values passed through unchanged. -/
theorem c7_normalization (body : JObj) (store : List JObj) (rec2 : JObj)
    (store2 : List JObj) (h : POST body store = (.created rec2, store2)) :
    store2 = store ++ [rec2] ∧
    jget rec2 "speciesId" = some (jnumOfInt (jsParseInt (jget body "speciesId"))) ∧
    (∃ s : String, jget body "locationName" = some (.str s) ∧
      jget rec2 "locationName" = some (.str (trimString s))) ∧
    (∃ coords : List JVal, jget body "coordinates" = some (.arr coords) ∧
      coords.length = 2 ∧
      jget rec2 "coordinates" = some (.arr [jnumOfQ (jsParseFloat (coords.get? 0)),
                                            jnumOfQ (jsParseFloat (coords.get? 1))])) ∧
    jfield (jget rec2 "bloomingPeriod") "start" =
      jfield (jget body "bloomingPeriod") "start" ∧
    jfield (jget rec2 "bloomingPeriod") "peak" =
      jfield (jget body "bloomingPeriod") "peak" ∧
    jfield (jget rec2 "bloomingPeriod") "end" =
      jfield (jget body "bloomingPeriod") "end" := by
  obtain ⟨hst, e1, e2, e3, e4, coords, nm, hc, hlen, ht, hrec⟩ :=
    POST_created_inv body store rec2 store2 h
  subst hrec
  subst hst
  have hbp : truthyOpt (jfield (jget body "bloomingPeriod") "start") = true ∧
      truthyOpt (jfield (jget body "bloomingPeriod") "peak") = true ∧
      truthyOpt (jfield (jget body "bloomingPeriod") "end") = true := by
    rw [failsInvalidBloomingPeriod] at e3
    simpa [and_assoc] using e3
  have hfield : ∀ k : String,
      truthyOpt (jfield (jget body "bloomingPeriod") k) = true →
      jget [("start", (jfield (jget body "bloomingPeriod") "start").getD .null),
            ("peak", (jfield (jget body "bloomingPeriod") "peak").getD .null),
            ("end", (jfield (jget body "bloomingPeriod") "end").getD .null)] k =
        some ((jfield (jget body "bloomingPeriod") k).getD .null) →
      jfield (some (JVal.obj
          [("start", (jfield (jget body "bloomingPeriod") "start").getD .null),
           ("peak", (jfield (jget body "bloomingPeriod") "peak").getD .null),
           ("end", (jfield (jget body "bloomingPeriod") "end").getD .null)])) k =
          jfield (jget body "bloomingPeriod") k := by
    intro k htr hjk
    rcases hx : jfield (jget body "bloomingPeriod") k with _ | v
    · rw [hx] at htr; simp [truthyOpt] at htr
    · show jget _ k = _
      rw [hjk, hx]
      rfl
  refine ⟨rfl, jget_mkLocation_speciesId body store nm coords, ?_, ?_, ?_, ?_, ?_⟩
  · rcases hn : jget body "locationName" with _ | v
    · rw [hn] at ht; simp [jsTrim] at ht
    · cases v <;> rw [hn] at ht <;> try simp [jsTrim] at ht
      case str str1 =>
        refine ⟨str1, rfl, ?_⟩
        rw [jget_mkLocation_locationName, ht]
  · exact ⟨coords, hc, hlen, jget_mkLocation_coordinates body store nm coords⟩
  · rw [jget_mkLocation_bloomingPeriod]
    exact hfield "start" hbp.1 rfl
  · rw [jget_mkLocation_bloomingPeriod]
    exact hfield "peak" hbp.2.1 rfl
  · rw [jget_mkLocation_bloomingPeriod]
    exact hfield "end" hbp.2.2 rfl

/-- C7 witness: the §8 creation scenario — species 2, name " Test Garden ",
numeric coordinates, ordered dates — stores a record whose name is trimmed
and whose dates equal the submitted strings. -/
theorem c7_normalization_witness :
    ((POST testPayload seedLocations).2 =
      seedLocations ++ [postRec testPayload seedLocations]) ∧
    jget (postRec testPayload seedLocations) "speciesId" =
      some (jnumOfInt (jsParseInt (jget testPayload "speciesId"))) ∧
    (∃ s : String, jget testPayload "locationName" = some (.str s) ∧
      jget (postRec testPayload seedLocations) "locationName" =
        some (.str (trimString s))) ∧
    (∃ coords : List JVal, jget testPayload "coordinates" = some (.arr coords) ∧
      coords.length = 2 ∧
      jget (postRec testPayload seedLocations) "coordinates" =
        some (.arr [jnumOfQ (jsParseFloat (coords.get? 0)),
                    jnumOfQ (jsParseFloat (coords.get? 1))])) ∧
    jfield (jget (postRec testPayload seedLocations) "bloomingPeriod") "start" =
      jfield (jget testPayload "bloomingPeriod") "start" ∧
    jfield (jget (postRec testPayload seedLocations) "bloomingPeriod") "peak" =
      jfield (jget testPayload "bloomingPeriod") "peak" ∧
    jfield (jget (postRec testPayload seedLocations) "bloomingPeriod") "end" =
      jfield (jget testPayload "bloomingPeriod") "end" :=
  c7_normalization testPayload seedLocations (postRec testPayload seedLocations)
    (POST testPayload seedLocations).2 rfl

/-- C8: Update with a truthy id parsing to `n` fails with NotFound when no
record has id `n` (store unchanged); on success the stored and returned
record is the shallow merge of the patch (the body minus its `id` field)
into the first record with id `n` — every field absent from the patch is
retained, every patch field wins, no re-validation runs (the patch is
arbitrary) — and the id of the record is unchanged even though the body carries
an `id` field. -/
theorem c8_update (body : JObj) (store : List JObj) (n : Int)
    (htr : truthyOpt (jget body "id") = true)
    (hn : jsParseInt (jget body "id") = some n) :
    ((∀ r ∈ store, jget r "id" ≠ some (.num (n : ℚ))) →
      PUT body store = (.errNotFound, store)) ∧
    (∀ pre r post, store = pre ++ r :: post →
      jget r "id" = some (.num (n : ℚ)) →
      (∀ x ∈ pre, jget x "id" ≠ some (.num (n : ℚ))) →
      PUT body store = (.ok (jmerge r (jremove body "id")),
                        pre ++ jmerge r (jremove body "id") :: post) ∧
      (∀ k, jget (jmerge r (jremove body "id")) k =
        jgetOr (jget (jremove body "id") k) (jget r k)) ∧
      jget (jmerge r (jremove body "id")) "id" = jget r "id") := by
  constructor
  · intro hno
    exact PUT_notFound_of body store htr (fun r hr => by
      rw [hn]; exact jsEqIdNum_false_of_ne _ _ (hno r hr))
  · intro pre r post hsplit hr hpre
    subst hsplit
    refine ⟨?_, fun k => jget_jmerge r (jremove body "id") k, ?_⟩
    · exact PUT_found body pre post r htr
        (by rw [hn]; exact jsEqIdNum_true_of_eq _ _ hr)
        (fun x hx => by rw [hn]; exact jsEqIdNum_false_of_ne _ _ (hpre x hx))
    · rw [jget_jmerge, jget_jremove_self]
      rfl

/-- C8 witness: updating seed record 1 with a rename body that also carries
an id field merges the patch, keeps the unpatched fields, and leaves the id
at 1. -/
theorem c8_update_witness :
    (PUT renameBody seedLocations =
      (.ok (jmerge seedA (jremove renameBody "id")),
       jmerge seedA (jremove renameBody "id") :: [seedB, seedC]) ∧
     (∀ k, jget (jmerge seedA (jremove renameBody "id")) k =
       jgetOr (jget (jremove renameBody "id") k) (jget seedA k)) ∧
     jget (jmerge seedA (jremove renameBody "id")) "id" = jget seedA "id") := by
  have h := (c8_update renameBody seedLocations 1 rfl rfl).2 [] seedA [seedB, seedC]
    rfl (by simp [seedA, jget]) (by simp)
  simpa using h

/-- C9: Delete with a nonempty id parameter parsing to `n` fails with
NotFound and leaves the store unchanged when no record has id `n`;
otherwise it removes exactly the first record with id `n` from the store,
returning the removed record. -/
theorem c9_delete (s : String) (store : List JObj) (n : Int) (hne : s ≠ "")
    (hn : parseIntStr s = some n) :
    ((∀ r ∈ store, jget r "id" ≠ some (.num (n : ℚ))) →
      DELETE (some s) store = (.errNotFound, store)) ∧
    (∀ pre r post, store = pre ++ r :: post →
      jget r "id" = some (.num (n : ℚ)) →
      (∀ x ∈ pre, jget x "id" ≠ some (.num (n : ℚ))) →
      DELETE (some s) store = (.ok r, pre ++ post)) := by
  constructor
  · intro hno
    exact DELETE_notFound_of s store hne (fun r hr => by
      rw [hn]; exact jsEqIdNum_false_of_ne _ _ (hno r hr))
  · intro pre r post hsplit hr hpre
    subst hsplit
    exact DELETE_found s pre post r hne
      (by rw [hn]; exact jsEqIdNum_true_of_eq _ _ hr)
      (fun x hx => by rw [hn]; exact jsEqIdNum_false_of_ne _ _ (hpre x hx))

/-- C9 witness: deleting id 2 removes exactly the second seed record, and
deleting id 99 reports NotFound with the store unchanged. -/
theorem c9_delete_witness :
    DELETE (some "2") seedLocations = (.ok seedB, [seedA, seedC]) ∧
    DELETE (some "99") seedLocations = (.errNotFound, seedLocations) := by
  constructor
  · have h := (c9_delete "2" seedLocations 2 (by decide) rfl).2 [seedA] seedB [seedC]
      rfl (by simp [seedB, jget]) ?_
    · simpa using h
    · intro x hx
      simp only [List.mem_singleton] at hx
      subst hx
      simp [seedA, jget]
  · exact (c9_delete "99" seedLocations 99 (by decide) rfl).1 (by
      intro r hr
      rw [seedLocations] at hr
      simp only [List.mem_cons, List.not_mem_nil, or_false] at hr
      rcases hr with rfl | rfl | rfl <;> simp [seedA, seedB, seedC, jget])

/-- C1 counterexample: from the seed store, a successful create yields id 4;
deleting id 4 and creating again with the same payload yields id 4 once
more, not id 5 — the id of a deleted maximum record is reused, refuting the
strict-increase-across-deletions claim. -/
theorem c1_counterexample :
    POST testPayload seedLocations = (.created createdTest, seedLocations ++ [createdTest]) ∧
    jget createdTest "id" = some (.num 4) ∧
    DELETE (some "4") (POST testPayload seedLocations).2 = (.ok createdTest, seedLocations) ∧
    postRec testPayload (DELETE (some "4") (POST testPayload seedLocations).2).2 =
      createdTest ∧
    JVal.num 4 ≠ JVal.num 5 := by
  have hmax : maxIdQ seedLocations = some 3 := by
    rw [maxIdQ, seedLocations, seedA, seedB, seedC]
    norm_num [idNum, jget, jsMax2]
  have hid : jsNewId seedLocations = .num 4 := by
    rw [jsNewId, hmax]
    norm_num
  have h2 : mkLocation testPayload seedLocations "Test Garden"
      [.num 106.7, .num 10.78] = createdTest := by
    rw [mkLocation, hid]
    rfl
  have hpost : POST testPayload seedLocations =
      (.created createdTest, seedLocations ++ [createdTest]) := by
    rw [← h2]
    rfl
  have hsnd : (POST testPayload seedLocations).2 = seedLocations ++ [createdTest] := by
    rw [hpost]
  have hdel : DELETE (some "4") (seedLocations ++ [createdTest]) =
      (.ok createdTest, seedLocations) := rfl
  refine ⟨hpost, rfl, by rw [hsnd]; exact hdel, ?_, ?_⟩
  · rw [hsnd, hdel, postRec, hpost]
  · intro hcon
    injection hcon with h
    norm_num at h

/-- C1 amended: Create assigns `id = max(existing ids, 0) + 1`: on a store
whose records carry numeric ids, the id of the created record is positive and
strictly greater than every id currently in the store, so consecutive
creates yield strictly increasing ids while the maximum record survives;
deleting the record holding the maximum id frees that id for reuse (see the
counterexample). -/
theorem c1_create_id (body : JObj) (store : List JObj) (rec2 : JObj)
    (store2 : List JObj)
    (hids : ∀ r ∈ store, ∃ p : ℚ, jget r "id" = some (.num p))
    (h : POST body store = (.created rec2, store2)) :
    ∃ q : ℚ, jget rec2 "id" = some (.num q) ∧ 0 < q ∧
      ∀ r ∈ store, ∀ p : ℚ, jget r "id" = some (.num p) → p < q := by
  obtain ⟨hst, e1, e2, e3, e4, coords, nm, hc, hlen, ht, hrec⟩ :=
    POST_created_inv body store rec2 store2 h
  subst hrec
  have hmap : ∀ x ∈ store.map idNum, ∃ p : ℚ, x = some p := by
    intro x hx
    obtain ⟨r, hr, rfl⟩ := List.mem_map.mp hx
    obtain ⟨p, hp⟩ := hids r hr
    exact ⟨p, by rw [idNum, hp]⟩
  obtain ⟨m, hm, h0, hall⟩ := foldl_jsMax2_bound (store.map idNum) 0 hmap
  refine ⟨m + 1, ?_, by linarith, ?_⟩
  · rw [jget_mkLocation_id, jsNewId, maxIdQ, hm]
  · intro r hr p hp
    have hpm : some p ∈ store.map idNum :=
      List.mem_map.mpr ⟨r, hr, by rw [idNum, hp]⟩
    have := hall p hpm
    linarith

/-- C1 witness: the create of the §8 scenario on the seed store yields an id
strictly above every seed id. -/
theorem c1_create_id_witness :
    ∃ q : ℚ, jget (postRec testPayload seedLocations) "id" = some (.num q) ∧ 0 < q ∧
      ∀ r ∈ seedLocations, ∀ p : ℚ, jget r "id" = some (.num p) → p < q :=
  c1_create_id testPayload seedLocations (postRec testPayload seedLocations)
    (POST testPayload seedLocations).2
    (by
      intro r hr
      rw [seedLocations] at hr
      simp only [List.mem_cons, List.not_mem_nil, or_false] at hr
      rcases hr with rfl | rfl | rfl
      exacts [⟨1, rfl⟩, ⟨2, rfl⟩, ⟨3, rfl⟩])
    rfl

/-- C10 counterexample: updating seed record 1 with a patch whose
`coordinates` is the one-element array `[0]` succeeds and stores a record
whose coordinates are not two numbers — Update does not validate, so the
claimed store-wide invariant fails. -/
theorem c10_counterexample :
    (PUT coordsPatchBody seedLocations).1 =
      .ok (jmerge seedA (jremove coordsPatchBody "id")) ∧
    jmerge seedA (jremove coordsPatchBody "id") ∈ (PUT coordsPatchBody seedLocations).2 ∧
    jget (jmerge seedA (jremove coordsPatchBody "id")) "coordinates" =
      some (.arr [.num 0]) ∧
    ¬ goodCoords (jmerge seedA (jremove coordsPatchBody "id")) := by
  refine ⟨rfl, ?_, rfl, ?_⟩
  · rw [show (PUT coordsPatchBody seedLocations).2 =
      jmerge seedA (jremove coordsPatchBody "id") :: [seedB, seedC] from rfl]
    exact List.mem_cons_self _ _
  · rintro ⟨a, b, hab⟩
    rw [show jget (jmerge seedA (jremove coordsPatchBody "id")) "coordinates" =
      some (.arr [.num 0]) from rfl] at hab
    simp at hab

/-- C10 amended: every seed record has coordinates of exactly two finite
numbers; Create preserves this whenever the coordinates of the payload are two
JSON numbers (otherwise the float coercion can store NaN); Delete preserves
it for every surviving record.  Update is excluded: it merges an arbitrary
patch without validation (see the counterexample). -/
theorem c10_coords_invariant :
    (∀ r ∈ seedLocations, goodCoords r) ∧
    (∀ body store rec2 store2, POST body store = (.created rec2, store2) →
      (∃ a b : ℚ, jget body "coordinates" = some (.arr [.num a, .num b])) →
      (∀ x ∈ store, goodCoords x) → ∀ x ∈ store2, goodCoords x) ∧
    (∀ idParam store res store2, DELETE idParam store = (res, store2) →
      (∀ x ∈ store, goodCoords x) → ∀ x ∈ store2, goodCoords x) := by
  refine ⟨?_, ?_, ?_⟩
  · intro r hr
    rw [seedLocations] at hr
    simp only [List.mem_cons, List.not_mem_nil, or_false] at hr
    rcases hr with rfl | rfl | rfl
    · exact ⟨106.7008, 10.7769, rfl⟩
    · exact ⟨106.6947, 10.7881, rfl⟩
    · exact ⟨106.692, 10.7756, rfl⟩
  · intro body store rec2 store2 h hcnum hstore x hx
    obtain ⟨hst, e1, e2, e3, e4, coords, nm, hc, hlen, ht, hrec⟩ :=
      POST_created_inv body store rec2 store2 h
    subst hrec
    subst hst
    rcases List.mem_append.mp hx with hx | hx
    · exact hstore x hx
    · simp only [List.mem_singleton] at hx
      subst hx
      obtain ⟨a, b, hab⟩ := hcnum
      rw [hc] at hab
      simp only [Option.some.injEq, JVal.arr.injEq] at hab
      subst hab
      exact ⟨a, b, rfl⟩
  · intro idParam store res store2 h hstore x hx
    rw [DELETE.eq_def] at h
    split at h
    · injection h with h1 h2
      subst h2
      exact hstore x hx
    · split at h
      · injection h with h1 h2
        subst h2
        exact hstore x hx
      · split at h
        · injection h with h1 h2
          subst h2
          exact hstore x hx
        · split at h
          · injection h with h1 h2
            subst h2
            exact hstore x (mem_of_mem_eraseIdx store _ hx)
          · injection h with h1 h2
            subst h2
            exact hstore x hx

/-- C10 witness: after deleting id 2 from the seed store, the surviving
record `seedC` still has two finite coordinates. -/
theorem c10_coords_invariant_witness : goodCoords seedC :=
  (c10_coords_invariant).2.2 (some "2") seedLocations
    (DELETE (some "2") seedLocations).1 (DELETE (some "2") seedLocations).2 rfl
    (c10_coords_invariant).1 seedC
    (by
      rw [show (DELETE (some "2") seedLocations).2 = [seedA, seedC] from rfl]
      simp)

end MapRepo
